import Mathlib

/-!
Verification development for the SHOPSPHERE e-commerce backend.

This file gives a shallow embedding, in Lean 4, of the order / payment /
stock reconciliation logic of the repository:

  - src/models/Order.js            (order schema and its pre-save stock hook)
  - src/controllers/order.js       (createOrder, cancelOrder)
  - src/controllers/cart.js        (checkout)
  - src/controllers/payment.js     (verifyTransaction, verifyPayment, webhook,
                                    manageStockAndAlerts)

Modelling conventions:
  - Mongo ObjectIds are Nat; timestamps (Date.now / new Date()) are Nat
    values passed in as a `now` parameter.
  - Documents are Lean structures; a collection is a List of documents.
  - Mongoose `findByIdAndUpdate` / `findOneAndUpdate` / `updateOne` run no
    document middleware, so they are embedded as plain list updates that do
    NOT invoke the pre-save hooks.  `.save()` and `.create()` run the
    pre-save middleware, so the embedding applies the hook functions there.
  - Free-form JS objects stored in `metadata` are embedded as association
    lists of string key/value pairs; an object spread-merge is rendered as
    list append (only the key sets and replacement-vs-merge distinction is
    used by the theorems).
  - External I/O (the Paystack HTTP API, the HMAC function, the email sink)
    is passed in as explicit parameters / oracles.
-/

namespace ShopSphere

/-- A product document (src/unnamed/part_000, the Products model), restricted
to the fields the reconciliation logic reads: id, name, price, stock, the
owning store, and the first image URL. -/
structure Product where
  pid : Nat
  name : String
  price : Int
  stock : Int
  store : Nat
  image : Option String
  deriving Repr, DecidableEq

/-- A line item of an order (orderItems entry in src/models/Order.js). -/
structure OrderItem where
  name : String
  quantity : Nat
  image : String
  price : Int
  product : Nat
  deriving Repr, DecidableEq

/-- The paymentInfo sub-object of an order (src/models/Order.js).  The schema
only declares id / status / reference / channel; extra keys written by the
controllers (amount, authorizationCode) are dropped by strict mode and are
therefore not modelled. -/
structure PaymentInfo where
  id : Option String
  status : Option String
  reference : Option String
  channel : Option String
  deriving Repr, DecidableEq

/-- An order document (src/models/Order.js).  The schema has no isPaid /
paidAt paths, so the controllers' writes to those keys are dropped by strict
mode and not modelled.  Statuses are kept as free-form strings, exactly as in
the source. -/
structure OrderRec where
  oid : Nat
  user : Nat
  orderItems : List OrderItem
  paymentInfo : Option PaymentInfo
  itemsPrice : Int
  totalPrice : Int
  orderStatus : String
  deliveredAt : Option Nat
  deriving Repr, DecidableEq

/-- Free-form metadata object, as an association list of string pairs. -/
abbrev Metadata := List (String × String)

/-- Does the metadata object carry the given key? -/
def Metadata.hasKey (m : Metadata) (k : String) : Bool :=
  (List.any m (fun e => e.1 == k))

/-- A payment document (src/unnamed/part_002, the Payment model). -/
structure PaymentRec where
  pid : Nat
  user : Nat
  order : Nat
  amount : Int
  status : String
  transactionReference : String
  authorizationCode : Option String
  paymentMethod : String
  paymentDate : Option Nat
  metadata : Metadata
  deriving Repr, DecidableEq

/-- A store document (src/models/Store.js), restricted to owner and name. -/
structure StoreRec where
  sid : Nat
  owner : String
  name : String
  deriving Repr, DecidableEq

/-- An out-of-stock alert handed to the email collaborator
(sendManagerAlert in src/config/email.js): recipient, subject, message. -/
structure Alert where
  email : String
  subject : String
  message : String
  deriving Repr, DecidableEq

/-- The persistent state: the products, orders, payments and stores
collections, plus the list of alerts handed to the notification sink. -/
structure DB where
  products : List Product
  orders : List OrderRec
  payments : List PaymentRec
  stores : List StoreRec
  alerts : List Alert
  deriving Repr, DecidableEq

/-- Generic findOne/findById over a collection: first document whose key
equals the requested one. -/
def findBy {α β : Type} [DecidableEq β] (key : α → β) (k : β) (l : List α) :
    Option α :=
  l.find? (fun a => decide (key a = k))

/-- Generic in-place document update (findByIdAndUpdate / save-back): apply
f to every document whose key matches. -/
def updBy {α β : Type} [DecidableEq β] (key : α → β) (k : β) (f : α → α)
    (l : List α) : List α :=
  l.map (fun a => if key a = k then f a else a)

def findProduct (ps : List Product) (pid : Nat) : Option Product :=
  findBy Product.pid pid ps

def findOrder (os : List OrderRec) (oid : Nat) : Option OrderRec :=
  findBy OrderRec.oid oid os

def findPaymentByRef (pays : List PaymentRec) (ref : String) :
    Option PaymentRec :=
  findBy PaymentRec.transactionReference ref pays

/-- One stock decrement: `product.stock -= qty` followed by save (the
Products model has no stock-relevant middleware). -/
def decStockOnce (ps : List Product) (pid : Nat) (qty : Nat) : List Product :=
  updBy Product.pid pid (fun p => { p with stock := p.stock - (qty : Int) }) ps

/-- Iterated stock decrement over (product id, quantity) pairs, in list
order, as done by the loops in the source. -/
def decStockMany (ps : List Product) (pairs : List (Nat × Nat)) :
    List Product :=
  pairs.foldl (fun acc pr => decStockOnce acc pr.1 pr.2) ps

/-- The (product id, quantity) pairs of a list of order items. -/
def itemPairs (items : List OrderItem) : List (Nat × Nat) :=
  items.map (fun it => (it.product, it.quantity))

/-- The pre-save hook of the Order model (src/models/Order.js lines
128-140): when the document is saved with a modified orderStatus equal to
'Processing', decrement each line's product stock by its quantity.  The
`statusModified` flag renders this.isModified('orderStatus'); it is true for
newly created documents. -/
def orderPreSaveHook (statusModified : Bool) (o : OrderRec)
    (ps : List Product) : List Product :=
  if statusModified && o.orderStatus == "Processing" then
    decStockMany ps (itemPairs o.orderItems)
  else ps

/-! ## Order controller (src/controllers/order.js) -/

/-- The outcomes of createOrder that the embedding distinguishes (order-item
validation and creation; the required-field / ObjectId-format checks are
about the HTTP encoding of ids and are outside the Nat-id model). -/
inductive CreateOrderRes where
  | emptyItems
  | productNotFound (itemName : String)
  | insufficientStock (productName : String) (available : Int)
  | created (oid : Nat)
  deriving Repr, DecidableEq

/-- The validation loop of createOrder (src/controllers/order.js lines
42-65): for each item, the product must exist and have stock at least the
requested quantity; the first failure aborts the whole request. -/
def validateItems (ps : List Product) : List OrderItem → Option CreateOrderRes
  | [] => none
  | it :: rest =>
    match findProduct ps it.product with
    | none => some (CreateOrderRes.productNotFound it.name)
    | some p =>
      if p.stock < (it.quantity : Int) then
        some (CreateOrderRes.insufficientStock p.name p.stock)
      else validateItems ps rest

/-- createOrder (src/controllers/order.js lines 7-94): validate every line,
then Order.create with orderStatus 'Processing'.  Order.create runs the
pre-save hook on a fresh document (every set path counts as modified), which
decrements stock. -/
def createOrder (userId : Nat) (items : List OrderItem)
    (itemsPrice totalPrice : Int) (newOid : Nat) (db : DB) :
    CreateOrderRes × DB :=
  if items.isEmpty then (CreateOrderRes.emptyItems, db)
  else
    match validateItems db.products items with
    | some e => (e, db)
    | none =>
      let o : OrderRec :=
        { oid := newOid, user := userId, orderItems := items,
          paymentInfo := none, itemsPrice := itemsPrice,
          totalPrice := totalPrice, orderStatus := "Processing",
          deliveredAt := none }
      let ps := orderPreSaveHook true o db.products
      (CreateOrderRes.created newOid,
        { db with orders := db.orders ++ [o], products := ps })

/-- The identity presented by the authenticated request (req.user). -/
structure Requester where
  id : Nat
  role : String
  deriving Repr, DecidableEq

/-- The outcomes of cancelOrder (src/controllers/order.js lines 188-232);
the source returns HTTP 404 / 403 / 400 / 200 respectively. -/
inductive CancelRes where
  | notFound
  | unauthorized
  | cannotCancelDelivered
  | cancelled (oid : Nat)
  deriving Repr, DecidableEq

/-- cancelOrder (src/controllers/order.js lines 188-232): look the order up,
authorize the requester (owner or admin), refuse a 'Delivered' order with
the message "Cannot cancel delivered order", otherwise set the status to
'Cancelled' and save.  The save runs the pre-save hook, whose
'Processing' test fails for 'Cancelled', so no stock moves. -/
def cancelOrder (req : Requester) (orderId : Nat) (db : DB) :
    CancelRes × DB :=
  match findOrder db.orders orderId with
  | none => (CancelRes.notFound, db)
  | some o =>
    if o.user ≠ req.id ∧ req.role ≠ "admin" then (CancelRes.unauthorized, db)
    else if o.orderStatus = "Delivered" then
      (CancelRes.cannotCancelDelivered, db)
    else
      let o' := { o with orderStatus := "Cancelled" }
      let ps := orderPreSaveHook (decide (o.orderStatus ≠ "Cancelled")) o'
        db.products
      (CancelRes.cancelled orderId,
        { db with orders := updBy OrderRec.oid orderId (fun _ => o') db.orders,
                  products := ps })

/-! ## Cart controller (src/controllers/cart.js) -/

/-- A cart line (src models/Cart items): product reference, snapshot name,
quantity, snapshot price, snapshot image. -/
structure CartItem where
  product : Nat
  name : String
  quantity : Nat
  price : Int
  image : String
  deriving Repr, DecidableEq

/-- Shipping info fields of the checkout body; None renders a missing
field. -/
structure ShippingInfo where
  address : Option String
  city : Option String
  state : Option String
  country : Option String
  postalCode : Option String
  phone : Option String
  deriving Repr, DecidableEq

/-- The required-shipping-field loop of checkout (src/controllers/cart.js
lines 390-399): first missing field among address, city, state, country,
postalCode, phone. -/
def missingShippingField (s : ShippingInfo) : Option String :=
  if s.address.isNone then some "address"
  else if s.city.isNone then some "city"
  else if s.state.isNone then some "state"
  else if s.country.isNone then some "country"
  else if s.postalCode.isNone then some "postalCode"
  else if s.phone.isNone then some "phone"
  else none

/-- The orderItems-building map of checkout (src/controllers/cart.js lines
402-417).  It throws on the first cart line whose populated product is
missing (generic message, no product identity) or whose stock is below the
requested quantity (message naming the product); otherwise it returns the
snapshotted order items. -/
def buildOrderItems (ps : List Product) :
    List CartItem → Except String (List OrderItem)
  | [] => Except.ok []
  | it :: rest =>
    match findProduct ps it.product with
    | none => Except.error "Product not found for cart item"
    | some p =>
      if p.stock < (it.quantity : Int) then
        Except.error ("Insufficient stock for " ++ p.name)
      else
        match buildOrderItems ps rest with
        | Except.error m => Except.error m
        | Except.ok tl =>
          Except.ok ({ name := p.name, quantity := it.quantity,
                       image := p.image.getD "/default-product.jpg",
                       price := p.price, product := p.pid } :: tl)

/-- The outcomes of checkout (src/controllers/cart.js lines 375-472).  The
catch branch answers HTTP 500 with the generic message 'Checkout processing
failed' and exposes the thrown message only in development mode. -/
inductive CheckoutRes where
  | emptyCart
  | missingShipping (field : String)
  | checkoutFailed (detail : Option String)
  | completed (oid : Nat) (totalAmount : Int)
  deriving Repr, DecidableEq

/-- checkout (src/controllers/cart.js lines 375-472): build the order items
(throw aborts with nothing persisted), price the cart from the cart's own
snapshot prices, save a new order with orderStatus 'Processing' (the
pre-save hook fires and decrements stock once per line), then run the
explicit per-line $inc stock update (no middleware), then clear the cart
(the cart itself is a request parameter here, not part of DB). -/
def checkout (userId : Nat) (shipping : ShippingInfo) (devMode : Bool)
    (newOid : Nat) (cart : List CartItem) (db : DB) : CheckoutRes × DB :=
  if cart.isEmpty then (CheckoutRes.emptyCart, db)
  else
    match missingShippingField shipping with
    | some f => (CheckoutRes.missingShipping f, db)
    | none =>
      match buildOrderItems db.products cart with
      | Except.error m =>
        (CheckoutRes.checkoutFailed (if devMode then some m else none), db)
      | Except.ok items =>
        let itemsPrice :=
          cart.foldl (fun sum it => sum + it.price * (it.quantity : Int)) 0
        let totalPrice := itemsPrice
        let o : OrderRec :=
          { oid := newOid, user := userId, orderItems := items,
            paymentInfo := none, itemsPrice := itemsPrice,
            totalPrice := totalPrice, orderStatus := "Processing",
            deliveredAt := none }
        let ps1 := orderPreSaveHook true o db.products
        let ps2 := decStockMany ps1
          (cart.map (fun it => (it.product, it.quantity)))
        (CheckoutRes.completed newOid totalPrice,
          { db with orders := db.orders ++ [o], products := ps2 })

/-! ## Payment controller (src/controllers/payment.js) -/

/-- Does the first list lead the second (character-wise)? -/
def leadsWith : List Char → List Char → Bool
  | [], _ => true
  | _ :: _, [] => false
  | a :: as, b :: bs => a == b && leadsWith as bs

/-- Does the haystack contain the needle as a contiguous segment? -/
def hasSegment (needle : List Char) : List Char → Bool
  | [] => needle.isEmpty
  | b :: bs => leadsWith needle (b :: bs) || hasSegment needle bs

/-- JS String.prototype.includes, for the error-message tests of the
source. -/
def strContains (hay needle : String) : Bool :=
  hasSegment needle.toList hay.toList

/-- JS String.prototype.startsWith, character-wise. -/
def strStarts (s pre : String) : Bool :=
  leadsWith pre.toList s.toList

/-- normalizeReference (src/controllers/payment.js lines 28-31). -/
def normalizeReference (ref : String) : String :=
  if strStarts ref "ref_" then ref else "ref_" ++ ref

/-- One response of the Paystack verify endpoint, as consumed by
verifyTransaction (src/controllers/payment.js lines 74-125):
  - ok d: a well-formed body whose data.status is d (none when the nested
    status is absent);
  - malformed: response.data.status is undefined, so the handler throws
    'Invalid Paystack response format';
  - httpErr code msg: the HTTP call rejected, with error.response?.status
    = code and error.message = msg. -/
inductive ProcResp where
  | ok (dataStatus : Option String)
  | malformed
  | httpErr (code : Option Nat) (msg : String)

/-- A thrown error of verifyTransaction: error.response?.status and
error.message. -/
structure VtErr where
  code : Option Nat
  msg : String
  deriving Repr, DecidableEq

instance {ε α : Type} [DecidableEq ε] [DecidableEq α] :
    DecidableEq (Except ε α) := fun a b =>
  match a, b with
  | Except.ok x, Except.ok y =>
    if h : x = y then isTrue (by rw [h])
    else isFalse (by intro hc; injection hc; contradiction)
  | Except.ok _, Except.error _ => isFalse (by intro hc; cases hc)
  | Except.error _, Except.ok _ => isFalse (by intro hc; cases hc)
  | Except.error x, Except.error y =>
    if h : x = y then isTrue (by rw [h])
    else isFalse (by intro hc; injection hc; contradiction)

/-- One complete run of verifyTransaction: its settled result, the list of
backoff sleeps in chronological order (milliseconds), and the number of
Paystack queries issued. -/
structure VtRun where
  result : Except VtErr (Option String)
  delays : List Nat
  attempts : Nat
  deriving Repr, DecidableEq


/-- verifyTransaction (src/controllers/payment.js lines 74-125).  The
processor is an oracle from the attempt number to its response.  The
async/await semantics of the source matters here.  The try block either:
  - returns the NOT-awaited recursive call (pending status below the cap,
    after sleeping baseDelay * attempt): because the source writes
    `return verifyTransaction(...)` and not `return await ...`, the
    returned promise's later rejection BYPASSES this frame's catch and
    propagates directly to the caller — the recursion is a linear chain;
  - returns the settled response data; or
  - throws within this frame (malformed body: 'Invalid Paystack response
    format'; pending at the cap: 'Transaction still pending after maximum
    retries'; a rejected awaited axios call): only these reach this
    frame's catch, which retries (sleep, then again a not-awaited
    recursive call) unless the attempt cap is reached, the HTTP status was
    404, or the message contains 'Invalid Paystack response' — the two
    frame-local throws both fall in the no-retry cases (the timeout throw
    only happens when the cap check already failed, and the malformed
    message matches the containment test), so they are rethrown as-is. -/
def verifyTransaction (proc : Nat → ProcResp) (attempt : Nat) : VtRun :=
  match proc attempt with
  | ProcResp.ok st =>
    if st = some "pending" then
      if _h : attempt < 5 then
        let d := 2000 * attempt
        let sub := verifyTransaction proc (attempt + 1)
        ⟨sub.result, d :: sub.delays, 1 + sub.attempts⟩
      else
        ⟨Except.error
          ⟨none, "Transaction still pending after maximum retries"⟩, [], 1⟩
    else ⟨Except.ok st, [], 1⟩
  | ProcResp.malformed =>
    ⟨Except.error ⟨none, "Invalid Paystack response format"⟩, [], 1⟩
  | ProcResp.httpErr c m =>
    if _h : attempt < 5 ∧ c ≠ some 404 ∧
        strContains m "Invalid Paystack response" = false then
      let d := 2000 * attempt
      let sub := verifyTransaction proc (attempt + 1)
      ⟨sub.result, d :: sub.delays, 1 + sub.attempts⟩
    else ⟨Except.error ⟨c, m⟩, [], 1⟩
  termination_by 5 - attempt

/-- The data object of a settled Paystack verification, as read by
verifyPayment: data.status, data.channel, data.authorization?.
authorization_code, data.amount, data.gateway_response. -/
structure PaystackData where
  status : String
  channel : Option String
  authorizationCode : Option String
  amount : Int
  gatewayResponse : Option String
  deriving Repr, DecidableEq

/-- The responses of verifyPayment (src/controllers/payment.js lines
252-446), one constructor per return site, carrying the fields the JSON
body exposes. -/
inductive VerifyRes where
  | invalidRef
  | notFound
  | alreadyVerified (paymentId : Nat) (amount : Int)
      (orderStatus : Option String) (verifiedAt : Option Nat)
  | verified (paymentId : Nat) (amount : Int)
      (authorizationCode : Option String) (orderStatus : Option String)
  | abandonedRes
  | failedRes (gatewayResponse : Option String)
  | unexpectedStatus (st : String)
  | verifyErr (msg : String)
  deriving Repr, DecidableEq

/-- verifyPayment (src/controllers/payment.js lines 252-446).  The result
of the outbound verifyTransaction call is the vres parameter (ok with the
settled data object, or error with the thrown message).  All persistence in
this handler goes through findByIdAndUpdate / updateOne, which run no
middleware, so no pre-save hook fires anywhere here and stock is never
touched. -/
def verifyPayment (reference : String)
    (vres : Except String PaystackData) (now : Nat) (db : DB) :
    VerifyRes × DB :=
  if strStarts reference "ref_" = false then (VerifyRes.invalidRef, db)
  else
    match findPaymentByRef db.payments reference with
    | none => (VerifyRes.notFound, db)
    | some p =>
      if p.status = "success" then
        (VerifyRes.alreadyVerified p.pid p.amount
          ((findOrder db.orders p.order).map OrderRec.orderStatus)
          p.paymentDate, db)
      else
        match vres with
        | Except.error msg =>
          let p' := { p with metadata :=
            p.metadata ++ [("lastVerificationError", msg),
                           ("lastVerificationAttempt", toString now)] }
          let pays := updBy PaymentRec.pid p.pid (fun _ => p') db.payments
          (VerifyRes.verifyErr msg, { db with payments := pays })
        | Except.ok d =>
          if d.status = "success" then
            let p' :=
              { p with
                status := "success", paymentDate := some now,
                authorizationCode := d.authorizationCode,
                paymentMethod := d.channel.getD "card",
                metadata := p.metadata ++
                  [("verifiedAt", toString now),
                   ("paystackData", d.status),
                   ("verificationDuration", toString now)] }
            let pays := updBy PaymentRec.pid p.pid (fun _ => p') db.payments
            match findOrder db.orders p.order with
            | none =>
              (VerifyRes.verified p.pid p.amount d.authorizationCode none,
                { db with payments := pays })
            | some o =>
              let pinfo : PaymentInfo :=
                { id := some reference, status := some "success",
                  reference := some reference, channel := d.channel }
              let o' :=
                { o with
                  orderStatus := "Processing", paymentInfo := some pinfo }
              let ords := updBy OrderRec.oid o.oid (fun _ => o') db.orders
              (VerifyRes.verified p.pid p.amount d.authorizationCode
                  (some "Processing"),
                { db with payments := pays, orders := ords })
          else if d.status = "abandoned" then
            let p' :=
              { p with
                status := "failed",
                metadata := p.metadata ++
                  [("failureReason", "User abandoned payment"),
                   ("paystackStatus", "abandoned"),
                   ("lastVerificationAttempt", toString now)] }
            let pays := updBy PaymentRec.pid p.pid (fun _ => p') db.payments
            (VerifyRes.abandonedRes, { db with payments := pays })
          else if d.status = "failed" then
            let p' :=
              { p with
                status := "failed",
                metadata := p.metadata ++
                  [("failureReason", d.gatewayResponse.getD "Payment failed"),
                   ("paystackData", d.status)] }
            let pays := updBy PaymentRec.pid p.pid (fun _ => p') db.payments
            (VerifyRes.failedRes d.gatewayResponse,
              { db with payments := pays })
          else
            let p' :=
              { p with
                status := "failed",
                metadata := p.metadata ++
                  [("failureReason", "Unexpected status: " ++ d.status),
                   ("paystackData", d.status)] }
            let pays := updBy PaymentRec.pid p.pid (fun _ => p') db.payments
            (VerifyRes.unexpectedStatus d.status,
              { db with payments := pays })

/-- A parsed webhook body: event name, data.reference, data.channel,
data.authorization?.authorization_code, data.amount. -/
structure WebhookEvent where
  event : String
  reference : String
  channel : Option String
  authorizationCode : Option String
  amount : Int
  deriving Repr, DecidableEq

/-- The responses of the webhook handler; the source answers HTTP 500 /
400 / 200 respectively. -/
inductive WebhookRes where
  | secretMissing
  | invalidSignature
  | processed
  deriving Repr, DecidableEq

/-- The HTTP status code of a webhook response. -/
def webhookStatusCode : WebhookRes → Nat
  | WebhookRes.secretMissing => 500
  | WebhookRes.invalidSignature => 400
  | WebhookRes.processed => 200

/-- A database access performed by the webhook handler, for stating that
signature rejection happens before any state is read or written. -/
inductive DbAccess where
  | touchPayment (ref : String)
  | touchOrder (oid : Nat)
  deriving Repr, DecidableEq

/-- webhook (src/controllers/payment.js lines 608-669).  hmac is the
HMAC-SHA512 hex digest function (keyed by the secret, applied to the raw
serialized body); missing secret answers 500; a signature mismatch answers
400 immediately, with no database access.  On charge.success the payment
matching the normalized reference is updated UNCONDITIONALLY through
findOneAndUpdate — there is no already-success check here, the status /
paymentDate / authorizationCode / paymentMethod fields are overwritten and
the metadata object is REPLACED — and the linked order is then updated
through findByIdAndUpdate.  No middleware runs, so stock is never touched.
Every other event is acknowledged with 200 and ignored. -/
def webhook (hmac : String → String → String) (secret : Option String)
    (signature rawBody : String) (ev : WebhookEvent) (now : Nat) (db : DB) :
    WebhookRes × DB × List DbAccess :=
  match secret with
  | none => (WebhookRes.secretMissing, db, [])
  | some s =>
    if hmac s rawBody ≠ signature then (WebhookRes.invalidSignature, db, [])
    else if ev.event = "charge.success" then
      let ref := normalizeReference ev.reference
      match findPaymentByRef db.payments ref with
      | none => (WebhookRes.processed, db, [DbAccess.touchPayment ref])
      | some p =>
        let p' :=
          { p with
            status := "success", paymentDate := some now,
            authorizationCode := ev.authorizationCode,
            paymentMethod := ev.channel.getD "card",
            metadata := [("paystackWebhook", rawBody)] }
        let pays :=
          updBy PaymentRec.transactionReference ref (fun _ => p') db.payments
        let db1 := { db with payments := pays }
        match findOrder db1.orders p.order with
        | none =>
          (WebhookRes.processed, db1, [DbAccess.touchPayment ref])
        | some o =>
          let pinfo : PaymentInfo :=
            { id := some ref, status := some "success",
              reference := some ref, channel := ev.channel }
          let o' :=
            { o with orderStatus := "Processing", paymentInfo := some pinfo }
          let ords := updBy OrderRec.oid o.oid (fun _ => o') db1.orders
          (WebhookRes.processed, { db1 with orders := ords },
            [DbAccess.touchPayment ref, DbAccess.touchOrder o.oid])
    else (WebhookRes.processed, db, [])

/-- manageStockAndAlerts (src/controllers/payment.js lines 674-697): the
stock-decrement-and-alert helper.  It is DEFINED in the source but never
invoked by any exported handler; it is embedded here to document what the
payment-success reconciliation was evidently meant to do. -/
def manageStockAndAlerts (o : OrderRec) (db : DB) : DB :=
  o.orderItems.foldl
    (fun acc it =>
      match findProduct acc.products it.product with
      | none => acc
      | some p =>
        let p' := { p with stock := p.stock - (it.quantity : Int) }
        let ps := updBy Product.pid p.pid (fun _ => p') acc.products
        let acc1 := { acc with products := ps }
        if p'.stock ≤ 0 then
          match findBy StoreRec.sid p.store acc1.stores with
          | none => acc1
          | some st =>
            { acc1 with alerts := acc1.alerts ++
              [{ email := st.owner, subject := "Product Out of Stock",
                 message := p.name ++ " is out of stock in " ++ st.name }] }
        else acc1)
    db

/-! ## Success-outcome operations

A "success outcome application" for a payment is either a synchronous
verifyPayment call whose Paystack verification settled, or a webhook
delivery.  Each operation carries its own request-level inputs. -/

/-- One application of a payment outcome through one of the two entry
points of src/controllers/payment.js. -/
inductive RecOp where
  | syncVerify (reference : String) (vres : Except String PaystackData)
      (now : Nat)
  | hookDeliver (hmac : String → String → String) (secret : Option String)
      (signature rawBody : String) (ev : WebhookEvent) (now : Nat)

/-- Apply one operation to the database, discarding the HTTP response. -/
def applyOp (db : DB) : RecOp → DB
  | RecOp.syncVerify reference vres now => (verifyPayment reference vres now db).2
  | RecOp.hookDeliver hmac secret signature rawBody ev now =>
    (webhook hmac secret signature rawBody ev now db).2.1

/-- Apply a sequence of operations in order. -/
def applyOps (db : DB) (ops : List RecOp) : DB :=
  ops.foldl applyOp db

/-! ## Concrete fixtures used by the witness and counterexample theorems -/

/-- A product with stock 10, as in the spec's example scenario. -/
def prodG : Product :=
  { pid := 1, name := "Gizmo", price := 1000, stock := 10, store := 7,
    image := none }

/-- An order with the single line (product 1, quantity 3). -/
def orderG : OrderRec :=
  { oid := 1, user := 4, orderItems :=
      [{ name := "Gizmo", quantity := 3, image := "i.jpg", price := 1000,
         product := 1 }],
    paymentInfo := none, itemsPrice := 3000, totalPrice := 3000,
    orderStatus := "Processing", deliveredAt := none }

/-- A pending payment for orderG under reference ref_t1. -/
def payPending : PaymentRec :=
  { pid := 9, user := 4, order := 1, amount := 3000, status := "pending",
    transactionReference := "ref_t1", authorizationCode := none,
    paymentMethod := "card", paymentDate := none, metadata := [] }

/-- State: stock 10, one order, one pending payment. -/
def dbPending : DB :=
  { products := [prodG], orders := [orderG], payments := [payPending],
    stores := [], alerts := [] }

/-- The fixture payment after a verification recorded at time 5. -/
def paySuccess : PaymentRec :=
  { payPending with status := "success", paymentDate := some 5 }

/-- Same state, but the payment already verified at time 5. -/
def dbSuccess : DB :=
  { dbPending with payments := [paySuccess] }

/-- Same state, but the payment already terminal in status failed. -/
def dbFailed : DB :=
  { dbPending with payments := [{ payPending with status := "failed" }] }

/-- A settled successful Paystack verification for the fixture. -/
def okData : PaystackData :=
  { status := "success", channel := some "card",
    authorizationCode := some "AUTH_x", amount := 300000,
    gatewayResponse := some "Successful" }

/-- A charge.success webhook body for reference t1 (normalized: ref_t1). -/
def evT1 : WebhookEvent :=
  { event := "charge.success", reference := "t1", channel := some "card",
    authorizationCode := some "AUTH_x", amount := 300000 }

/-- A concrete stand-in digest function for witness checking (the theorems
about signature handling are universally quantified over the digest). -/
def hmacK : String → String → String := fun s b => s ++ "/" ++ b

/-- The processor oracle that reports pending on every query. -/
def pendingProc : Nat → ProcResp := fun _ => ProcResp.ok (some "pending")

/-- A fully populated shipping form. -/
def shipOK : ShippingInfo :=
  { address := some "1 Road", city := some "Lagos", state := some "LA",
    country := some "NG", postalCode := some "100001",
    phone := some "0800" }

/-- A cart whose single line references the existing product 1, qty 3. -/
def cartG : List CartItem :=
  [{ product := 1, name := "Gizmo", quantity := 3, price := 1000,
     image := "i.jpg" }]

/-- A cart whose single line references the absent product 99. -/
def cartMissing : List CartItem :=
  [{ product := 99, name := "Gizmo", quantity := 1, price := 5,
     image := "i.jpg" }]

/-- A delivered order owned by user 4. -/
def orderD : OrderRec := { orderG with oid := 2, orderStatus := "Delivered" }

/-- State holding one non-delivered and one delivered order. -/
def dbOrders : DB :=
  { products := [prodG], orders := [orderG, orderD], payments := [],
    stores := [], alerts := [] }

/-- A settled failed Paystack verification. -/
def failData : PaystackData :=
  { status := "failed", channel := some "card", authorizationCode := none,
    amount := 300000, gatewayResponse := some "Declined" }

/-- An order line that references the absent product 99. -/
def itemMissing : OrderItem :=
  { name := "Widget", quantity := 1, image := "i.jpg", price := 5,
    product := 99 }

/-- One synchronous success application for the fixture reference. -/
def opG : RecOp := RecOp.syncVerify "ref_t1" (Except.ok okData) 50

/-! ## Generic collection lemmas -/

theorem findBy_key_of_found {α β : Type} [DecidableEq β] {key : α → β}
    {k : β} {l : List α} {p : α} (hp : findBy key k l = some p) :
    key p = k := by
  have := List.find?_some hp
  simpa using this

theorem findBy_map_preserve {α β : Type} [DecidableEq β] {key : α → β}
    {g : α → α} (hg : ∀ a, key (g a) = key a) {k : β} {l : List α} {p : α}
    (hp : findBy key k l = some p) :
    findBy key k (l.map g) = some (g p) := by
  induction l with
  | nil => simp [findBy] at hp
  | cons a l ih =>
    simp only [findBy, List.map_cons] at hp ⊢
    by_cases hk : key a = k
    · rw [List.find?_cons_of_pos _ (by simp [hk])] at hp
      cases hp
      rw [List.find?_cons_of_pos _ (by simp [hg, hk])]
    · rw [List.find?_cons_of_neg _ (by simp [hk])] at hp
      rw [List.find?_cons_of_neg _ (by simp [hg, hk])]
      exact ih hp

theorem findBy_updBy_self {α β : Type} [DecidableEq β] {key : α → β}
    {f : α → α} (hf : ∀ a, key (f a) = key a) {k : β} {l : List α} {p : α}
    (hp : findBy key k l = some p) :
    findBy key k (updBy key k f l) = some (f p) := by
  have hkey := findBy_key_of_found hp
  have hg : ∀ a, key (if key a = k then f a else a) = key a := by
    intro a; split <;> simp [hf]
  have h2 := findBy_map_preserve hg hp
  rw [updBy, h2, if_pos hkey]

theorem findBy_updBy_ne {α β : Type} [DecidableEq β] {key : α → β}
    {f : α → α} (hf : ∀ a, key (f a) = key a) {k k' : β} (hkk : k ≠ k')
    {l : List α} :
    findBy key k (updBy key k' f l) = findBy key k l := by
  induction l with
  | nil => rfl
  | cons a l ih =>
    simp only [updBy, List.map_cons, findBy] at ih ⊢
    by_cases hk : key a = k
    · rw [if_neg (by rw [hk]; exact hkk),
        List.find?_cons_of_pos _ (by simp [hk]),
        List.find?_cons_of_pos _ (by simp [hk])]
    · by_cases hk' : key a = k'
      · rw [if_pos hk', List.find?_cons_of_neg _ (by simp [hf, hk]),
          List.find?_cons_of_neg _ (by simp [hk])]
        exact ih
      · rw [if_neg hk', List.find?_cons_of_neg _ (by simp [hk]),
          List.find?_cons_of_neg _ (by simp [hk])]
        exact ih

/-- Updating the (unique-keyed) document found under a search key leaves
it findable, provided the update preserves the search key of that document
and no other document shares its update key. -/
theorem findBy_updBy_nodup {α β γ : Type} [DecidableEq β] [DecidableEq γ]
    {key : α → β} {key2 : α → γ} {f : α → α} {k : β} {k2 : γ}
    {l : List α} {p : α} (hnd : (l.map key2).Nodup)
    (hp : findBy key k l = some p) (hpk2 : key2 p = k2)
    (hkeep : key (f p) = key p) :
    findBy key k (updBy key2 k2 f l) = some (f p) := by
  induction l with
  | nil => simp [findBy] at hp
  | cons a rest ih =>
    simp only [List.map_cons, List.nodup_cons] at hnd
    simp only [findBy, updBy, List.map_cons] at hp ⊢
    by_cases hka : key a = k
    · rw [List.find?_cons_of_pos _ (by simp [hka])] at hp
      cases hp
      rw [if_pos hpk2, List.find?_cons_of_pos _ (by simp [hkeep, hka])]
    · rw [List.find?_cons_of_neg _ (by simp [hka])] at hp
      have hpmem : p ∈ rest := List.mem_of_find?_eq_some hp
      have hk2a : key2 a ≠ k2 := by
        intro hcon
        apply hnd.1
        rw [hcon, ← hpk2]
        exact List.mem_map_of_mem key2 hpmem
      rw [if_neg hk2a, List.find?_cons_of_neg _ (by simp [hka])]
      exact ih hnd.2 hp

/-! ## Stock-decrement lemmas -/

theorem findProduct_decStockOnce_self {ps : List Product} {pid : Nat}
    {q : Nat} {p : Product} (hp : findProduct ps pid = some p) :
    findProduct (decStockOnce ps pid q) pid =
      some { p with stock := p.stock - (q : Int) } := by
  unfold findProduct decStockOnce
  refine findBy_updBy_self ?_ hp
  intro a; rfl

theorem findProduct_decStockOnce_ne {ps : List Product} {pid pid' : Nat}
    {q : Nat} (h : pid ≠ pid') :
    findProduct (decStockOnce ps pid' q) pid = findProduct ps pid := by
  unfold findProduct decStockOnce
  refine findBy_updBy_ne ?_ h
  intro a; rfl

theorem findProduct_decStockMany_not_mem {pairs : List (Nat × Nat)}
    {pid : Nat} (h : pid ∉ pairs.map Prod.fst) {ps : List Product} :
    findProduct (decStockMany ps pairs) pid = findProduct ps pid := by
  induction pairs generalizing ps with
  | nil => rfl
  | cons a rest ih =>
    simp only [List.map_cons, List.mem_cons, not_or] at h
    show findProduct (decStockMany (decStockOnce ps a.1 a.2) rest) pid = _
    rw [ih h.2, findProduct_decStockOnce_ne h.1]

theorem findProduct_decStockMany_mem {pairs : List (Nat × Nat)}
    {pid q : Nat} (hnd : (pairs.map Prod.fst).Nodup)
    (hmem : (pid, q) ∈ pairs) {ps : List Product} {p : Product}
    (hp : findProduct ps pid = some p) :
    findProduct (decStockMany ps pairs) pid =
      some { p with stock := p.stock - (q : Int) } := by
  induction pairs generalizing ps p with
  | nil => cases hmem
  | cons a rest ih =>
    simp only [List.map_cons, List.nodup_cons] at hnd
    show findProduct (decStockMany (decStockOnce ps a.1 a.2) rest) pid = _
    rcases List.mem_cons.mp hmem with heq | hrest
    · cases heq
      rw [findProduct_decStockMany_not_mem hnd.1,
        findProduct_decStockOnce_self hp]
    · have hne : pid ≠ a.1 := by
        intro hcon
        exact hnd.1 (hcon ▸ List.mem_map_of_mem Prod.fst hrest)
      have hp' : findProduct (decStockOnce ps a.1 a.2) pid = some p := by
        rw [findProduct_decStockOnce_ne hne, hp]
      exact ih hnd.2 hrest hp'

/-! ## Frame lemmas: neither payment entry point ever touches stock -/

theorem verifyPayment_products (reference : String)
    (vres : Except String PaystackData) (now : Nat) (db : DB) :
    ((verifyPayment reference vres now db).2).products = db.products := by
  unfold verifyPayment
  repeat' split
  all_goals rfl

theorem webhook_products (hmac : String → String → String)
    (secret : Option String) (signature rawBody : String)
    (ev : WebhookEvent) (now : Nat) (db : DB) :
    ((webhook hmac secret signature rawBody ev now db).2.1).products
      = db.products := by
  unfold webhook
  repeat' split
  all_goals try rfl
  all_goals dsimp only
  all_goals repeat' split
  all_goals rfl

theorem applyOp_products (db : DB) (op : RecOp) :
    (applyOp db op).products = db.products := by
  cases op with
  | syncVerify reference vres now => exact verifyPayment_products ..
  | hookDeliver hmac secret signature rawBody ev now =>
    exact webhook_products ..

theorem applyOps_products (db : DB) (ops : List RecOp) :
    (applyOps db ops).products = db.products := by
  induction ops generalizing db with
  | nil => rfl
  | cons op rest ih =>
    show (applyOps (applyOp db op) rest).products = db.products
    rw [ih, applyOp_products]

/-! ## Checkout / createOrder structural lemmas -/

theorem buildOrderItems_pairs {ps : List Product} {cart : List CartItem}
    {items : List OrderItem}
    (h : buildOrderItems ps cart = Except.ok items) :
    itemPairs items = cart.map (fun c => (c.product, c.quantity)) := by
  induction cart generalizing items with
  | nil => cases h; rfl
  | cons c rest ih =>
    unfold buildOrderItems at h
    cases hf : findProduct ps c.product with
    | none => rw [hf] at h; cases h
    | some p =>
      rw [hf] at h
      dsimp only at h
      by_cases hs : p.stock < (c.quantity : Int)
      · rw [if_pos hs] at h; cases h
      · rw [if_neg hs] at h
        cases hr : buildOrderItems ps rest with
        | error m => rw [hr] at h; cases h
        | ok tl =>
          rw [hr] at h
          cases h
          have hpid : p.pid = c.product := findBy_key_of_found hf
          simp [itemPairs, hpid] at ih ⊢
          exact ih hr

theorem buildOrderItems_found {ps : List Product} {cart : List CartItem}
    {items : List OrderItem}
    (h : buildOrderItems ps cart = Except.ok items) :
    ∀ c ∈ cart, ∃ p, findProduct ps c.product = some p := by
  induction cart generalizing items with
  | nil => intro c hc; cases hc
  | cons c rest ih =>
    intro c2 hc2
    unfold buildOrderItems at h
    cases hf : findProduct ps c.product with
    | none => rw [hf] at h; cases h
    | some p =>
      rw [hf] at h
      dsimp only at h
      by_cases hs : p.stock < (c.quantity : Int)
      · rw [if_pos hs] at h; cases h
      · rw [if_neg hs] at h
        cases hr : buildOrderItems ps rest with
        | error m => rw [hr] at h; cases h
        | ok tl =>
          rcases List.mem_cons.mp hc2 with heq | hmem
          · exact heq ▸ ⟨p, hf⟩
          · exact ih hr c2 hmem

theorem buildOrderItems_error_shape {ps : List Product} {cart : List CartItem}
    {m : String} (h : buildOrderItems ps cart = Except.error m) :
    m = "Product not found for cart item" ∨
    ∃ c ∈ cart, ∃ p, findProduct ps c.product = some p ∧
      p.stock < (c.quantity : Int) ∧
      m = "Insufficient stock for " ++ p.name := by
  induction cart with
  | nil => cases h
  | cons c rest ih =>
    unfold buildOrderItems at h
    cases hf : findProduct ps c.product with
    | none => rw [hf] at h; cases h; exact Or.inl rfl
    | some p =>
      rw [hf] at h
      dsimp only at h
      by_cases hs : p.stock < (c.quantity : Int)
      · rw [if_pos hs] at h
        cases h
        exact Or.inr ⟨c, List.mem_cons_self c rest, p, hf, hs, rfl⟩
      · rw [if_neg hs] at h
        cases hr : buildOrderItems ps rest with
        | error m2 =>
          rw [hr] at h
          cases h
          rcases ih hr with h1 | ⟨c2, hc2, p2, hfp2, hs2, hm2⟩
          · exact Or.inl h1
          · exact Or.inr ⟨c2, List.mem_cons_of_mem c hc2, p2, hfp2, hs2, hm2⟩
        | ok tl => rw [hr] at h; cases h

theorem validateItems_some_shape {ps : List Product} {items : List OrderItem}
    {e : CreateOrderRes} (h : validateItems ps items = some e) :
    (∃ it ∈ items, findProduct ps it.product = none ∧
      e = CreateOrderRes.productNotFound it.name) ∨
    (∃ it ∈ items, ∃ p, findProduct ps it.product = some p ∧
      p.stock < (it.quantity : Int) ∧
      e = CreateOrderRes.insufficientStock p.name p.stock) := by
  induction items with
  | nil => cases h
  | cons it rest ih =>
    unfold validateItems at h
    cases hf : findProduct ps it.product with
    | none =>
      rw [hf] at h
      cases h
      exact Or.inl ⟨it, List.mem_cons_self it rest, hf, rfl⟩
    | some p =>
      rw [hf] at h
      dsimp only at h
      by_cases hs : p.stock < (it.quantity : Int)
      · rw [if_pos hs] at h
        cases h
        exact Or.inr ⟨it, List.mem_cons_self it rest, p, hf, hs, rfl⟩
      · rw [if_neg hs] at h
        rcases ih h with ⟨i2, hi2, hf2, he2⟩ | ⟨i2, hi2, p2, hf2, hs2, he2⟩
        · exact Or.inl ⟨i2, List.mem_cons_of_mem it hi2, hf2, he2⟩
        · exact Or.inr ⟨i2, List.mem_cons_of_mem it hi2, p2, hf2, hs2, he2⟩

/-! ## Evaluation of verifyTransaction against an always-pending processor

A pending status below the cap sleeps and then returns the recursive call
without awaiting it, so the inner run's eventual rejection bypasses the
outer frames' catch blocks entirely: the recursion is a linear chain of
exactly 5 queries, with a sleep of baseDelay * attempt after each of the
first four, and the timeout error thrown at attempt 5 propagates to the
caller unchanged. -/

theorem vtPend5 (proc : Nat → ProcResp)
    (h : ∀ n, proc n = ProcResp.ok (some "pending")) :
    verifyTransaction proc 5 =
      ⟨Except.error ⟨none, "Transaction still pending after maximum retries"⟩,
        [], 1⟩ := by
  rw [verifyTransaction.eq_def]
  simp [h]

theorem vtPend4 (proc : Nat → ProcResp)
    (h : ∀ n, proc n = ProcResp.ok (some "pending")) :
    verifyTransaction proc 4 =
      ⟨Except.error ⟨none, "Transaction still pending after maximum retries"⟩,
        [8000], 2⟩ := by
  rw [verifyTransaction.eq_def]
  simp [h, vtPend5 proc h]

theorem vtPend3 (proc : Nat → ProcResp)
    (h : ∀ n, proc n = ProcResp.ok (some "pending")) :
    verifyTransaction proc 3 =
      ⟨Except.error ⟨none, "Transaction still pending after maximum retries"⟩,
        [6000, 8000], 3⟩ := by
  rw [verifyTransaction.eq_def]
  simp [h, vtPend4 proc h]

theorem vtPend2 (proc : Nat → ProcResp)
    (h : ∀ n, proc n = ProcResp.ok (some "pending")) :
    verifyTransaction proc 2 =
      ⟨Except.error ⟨none, "Transaction still pending after maximum retries"⟩,
        [4000, 6000, 8000], 4⟩ := by
  rw [verifyTransaction.eq_def]
  simp [h, vtPend3 proc h]

theorem vtPend1 (proc : Nat → ProcResp)
    (h : ∀ n, proc n = ProcResp.ok (some "pending")) :
    verifyTransaction proc 1 =
      ⟨Except.error ⟨none, "Transaction still pending after maximum retries"⟩,
        [2000, 4000, 6000, 8000], 5⟩ := by
  rw [verifyTransaction.eq_def]
  simp [h, vtPend2 proc h]

/-! ## Additional shared helper lemmas -/

theorem metadata_hasKey_append (m : Metadata) (k v : String)
    (tl : Metadata) :
    Metadata.hasKey (m ++ (k, v) :: tl) k = true := by
  simp [Metadata.hasKey]

/-- A correctly signed charge.success webhook finds the payment matching
the normalized reference and overwrites it unconditionally — no check of
the current status happens on this path. -/
theorem webhook_overwrites (db : DB) (reference : String) (p : PaymentRec)
    (hmac : String → String → String) (s signature rawBody : String)
    (ev : WebhookEvent) (now : Nat)
    (hsig : hmac s rawBody = signature)
    (hev : ev.event = "charge.success")
    (hrefev : normalizeReference ev.reference = reference)
    (hnd : (db.payments.map PaymentRec.transactionReference).Nodup)
    (hp : findPaymentByRef db.payments reference = some p) :
    findPaymentByRef
        ((webhook hmac (some s) signature rawBody ev now db).2.1).payments
        reference =
      some { p with
             status := "success", paymentDate := some now,
             authorizationCode := ev.authorizationCode,
             paymentMethod := ev.channel.getD "card",
             metadata := [("paystackWebhook", rawBody)] } := by
  have hok : ¬ (hmac s rawBody ≠ signature) := by simp [hsig]
  unfold webhook
  dsimp only
  rw [if_neg hok, if_pos hev, hrefev, hp]
  dsimp only
  cases hord : findOrder db.orders p.order with
  | none => exact findBy_updBy_nodup hnd hp (findBy_key_of_found hp) rfl
  | some o => exact findBy_updBy_nodup hnd hp (findBy_key_of_found hp) rfl

theorem orderPreSaveHook_processing (o : OrderRec) (ps : List Product)
    (h : o.orderStatus = "Processing") :
    orderPreSaveHook true o ps = decStockMany ps (itemPairs o.orderItems) := by
  unfold orderPreSaveHook
  rw [h]
  rfl

theorem itemPairs_fst (items : List OrderItem) :
    (itemPairs items).map Prod.fst = items.map (fun i => i.product) := by
  simp [itemPairs, List.map_map]

theorem cartPairs_fst (cart : List CartItem) :
    ((cart.map (fun c => (c.product, c.quantity))).map Prod.fst)
      = cart.map (fun c => c.product) := by
  simp [List.map_map]

/-! ## Claim C1 -/

/-- Claim C1, counterexample.  The claim says that applying one success
outcome to the pending payment of the fixture order (one line of quantity
3 against stock 10) decrements the stock to 7.  In the code the
payment-success path performs NO stock mutation at all (all its writes go
through findByIdAndUpdate, which runs no middleware, and the
manageStockAndAlerts helper is never invoked): the stock stays 10, which
is not 10 - 3. -/
theorem claim1_counterexample :
    (findProduct ((verifyPayment "ref_t1" (Except.ok okData) 50
        dbPending).2).products 1).map Product.stock = some 10 ∧
    ¬ ((10 : Int) = 10 - 3) :=
  ⟨by decide, by decide⟩

/-- Claim C1, amended: applying a success outcome N times (N >= 1), through
any interleaving of the synchronous verify path and the webhook path, never
changes any product stock; the per-line decrement instead happens exactly
once at order creation, performed by the Order pre-save hook because the
order is created with status Processing. -/
theorem claim1_amended :
    (∀ (db : DB) (ops : List RecOp), ops ≠ [] →
      (applyOps db ops).products = db.products) ∧
    (∀ (userId : Nat) (items : List OrderItem) (ip tp : Int) (newOid : Nat)
        (db : DB) (it : OrderItem) (p : Product),
      validateItems db.products items = none →
      (items.map (fun i => i.product)).Nodup →
      it ∈ items →
      findProduct db.products it.product = some p →
      (createOrder userId items ip tp newOid db).1 =
        CreateOrderRes.created newOid ∧
      findProduct ((createOrder userId items ip tp newOid db).2).products
          it.product =
        some { p with stock := p.stock - (it.quantity : Int) }) := by
  constructor
  · exact fun db ops _ => applyOps_products db ops
  · intro userId items ip tp newOid db it p hval hnd hmem hp
    have hne : items.isEmpty = false := by
      cases items with
      | nil => cases hmem
      | cons a l => rfl
    have h0 : ¬ ((false : Bool) = true) := by simp
    unfold createOrder
    rw [hne, if_neg h0, hval]
    dsimp only
    refine ⟨rfl, ?_⟩
    rw [orderPreSaveHook_processing _ _ rfl]
    have hndp : ((itemPairs items).map Prod.fst).Nodup := by
      rw [itemPairs_fst]; exact hnd
    have hmemp : (it.product, it.quantity) ∈ itemPairs items :=
      List.mem_map_of_mem _ hmem
    exact findProduct_decStockMany_mem hndp hmemp hp

/-- Claim C1, witness for the amended statement at the fixture. -/
theorem claim1_amended_witness :
    (([opG] : List RecOp) ≠ [] ∧
      (applyOps dbPending [opG]).products = dbPending.products) ∧
    ((createOrder 4 orderG.orderItems 3000 3000 2 dbPending).1 =
        CreateOrderRes.created 2 ∧
      findProduct ((createOrder 4 orderG.orderItems 3000 3000 2
          dbPending).2).products 1 =
        some { prodG with stock := prodG.stock - (3 : Int) }) := by
  constructor
  · exact ⟨List.cons_ne_nil _ _,
      claim1_amended.1 dbPending [opG] (List.cons_ne_nil _ _)⟩
  · exact claim1_amended.2 4 orderG.orderItems 3000 3000 2 dbPending
      { name := "Gizmo", quantity := 3, image := "i.jpg", price := 1000,
        product := 1 } prodG (by decide) (by decide) (by decide) (by decide)

/-! ## Claim C2 -/

/-- Claim C2: calling the synchronous verifyPayment on a payment whose
status is already success returns the previously recorded result (payment
id, amount, the linked order status, the recorded payment date, from the
cache) and performs no mutation whatsoever: the database is returned
unchanged. -/
theorem claim2_verify_idempotent (db : DB) (reference : String)
    (p : PaymentRec) (vres : Except String PaystackData) (now : Nat)
    (href : strStarts reference "ref_" = true)
    (hp : findPaymentByRef db.payments reference = some p)
    (hs : p.status = "success") :
    verifyPayment reference vres now db =
      (VerifyRes.alreadyVerified p.pid p.amount
        ((findOrder db.orders p.order).map OrderRec.orderStatus)
        p.paymentDate, db) := by
  unfold verifyPayment
  rw [href, hp]
  simp [hs]

/-- Claim C2, witness at the fixture state. -/
theorem claim2_verify_idempotent_witness :
    verifyPayment "ref_t1" (Except.ok okData) 99 dbSuccess =
      (VerifyRes.alreadyVerified 9 3000 (some "Processing") (some 5),
        dbSuccess) := by
  have h := claim2_verify_idempotent dbSuccess "ref_t1" paySuccess
    (Except.ok okData) 99 (by decide) (by decide) rfl
  simpa using h

/-! ## Claim C3 -/

/-- Claim C3, counterexample.  The claim says the webhook path applies the
same already-success idempotency guard as the synchronous verify and ends
in the same state.  On a payment that is already success, the synchronous
verify leaves the state untouched, but a correctly signed charge.success
webhook for the same reference mutates it (it overwrites paymentDate and
replaces the metadata), so the two paths differ. -/
theorem claim3_counterexample :
    (webhook hmacK (some "sec") "sec/raw" "raw" evT1 99
        dbSuccess).2.1 ≠ dbSuccess ∧
    (verifyPayment "ref_t1" (Except.ok okData) 99 dbSuccess).2 = dbSuccess :=
  ⟨by decide, by decide⟩

/-- Claim C3, amended: for a payment that is already success, the
synchronous verify short-circuits and mutates nothing, while the correctly
signed charge.success webhook for the same reference applies NO such guard:
it unconditionally overwrites the payment (status, payment date,
authorization code, method) and replaces its metadata, so the two entry
points do not drive the same reconciliation path. -/
theorem claim3_amended (db : DB) (reference : String) (p : PaymentRec)
    (hmac : String → String → String) (s signature rawBody : String)
    (ev : WebhookEvent) (now : Nat) (vres : Except String PaystackData)
    (hsig : hmac s rawBody = signature)
    (hev : ev.event = "charge.success")
    (hrefev : normalizeReference ev.reference = reference)
    (href : strStarts reference "ref_" = true)
    (hnd : (db.payments.map PaymentRec.transactionReference).Nodup)
    (hp : findPaymentByRef db.payments reference = some p)
    (hs : p.status = "success") :
    (verifyPayment reference vres now db).2 = db ∧
    findPaymentByRef
        ((webhook hmac (some s) signature rawBody ev now db).2.1).payments
        reference =
      some { p with
             status := "success", paymentDate := some now,
             authorizationCode := ev.authorizationCode,
             paymentMethod := ev.channel.getD "card",
             metadata := [("paystackWebhook", rawBody)] } := by
  constructor
  · have hfull : verifyPayment reference vres now db =
        (VerifyRes.alreadyVerified p.pid p.amount
          ((findOrder db.orders p.order).map OrderRec.orderStatus)
          p.paymentDate, db) := by
      unfold verifyPayment
      rw [href, hp]
      simp [hs]
    rw [hfull]
  · exact webhook_overwrites db reference p hmac s signature rawBody ev now
      hsig hev hrefev hnd hp

/-- Claim C3, witness for the amended statement at the fixture. -/
theorem claim3_amended_witness :
    (verifyPayment "ref_t1" (Except.ok okData) 99 dbSuccess).2 =
      dbSuccess ∧
    findPaymentByRef ((webhook hmacK (some "sec") "sec/raw" "raw" evT1 99
        dbSuccess).2.1).payments "ref_t1" =
      some { paySuccess with
             status := "success", paymentDate := some 99,
             authorizationCode := some "AUTH_x", paymentMethod := "card",
             metadata := [("paystackWebhook", "raw")] } :=
  claim3_amended dbSuccess "ref_t1" paySuccess hmacK "sec" "sec/raw" "raw"
    evT1 99 (Except.ok okData) rfl rfl (by decide) (by decide) (by decide)
    (by decide) rfl

/-! ## Claim C4 -/

/-- Claim C4, counterexample.  The claim says a terminal payment (success
or failed) is immutable except for metadata.  A correctly signed
charge.success webhook flips a failed payment back to success, changing
its status. -/
theorem claim4_counterexample :
    (findPaymentByRef dbFailed.payments "ref_t1").map PaymentRec.status =
      some "failed" ∧
    (findPaymentByRef ((webhook hmacK (some "sec") "sec/raw" "raw" evT1 99
        dbFailed).2.1).payments "ref_t1").map PaymentRec.status =
      some "success" :=
  ⟨by decide, by decide⟩

/-- Claim C4, amended: only the synchronous verify path guards terminal
state, and only for status success (an already-success payment is returned
from cache with no mutation); the webhook path overwrites status,
payment date, authorization code, method and metadata of whatever payment
matches the reference, regardless of its current status — in particular a
failed payment is driven back to success, and an already-success payment
has its payment date and metadata rewritten. -/
theorem claim4_amended :
    (∀ (db : DB) (reference : String) (p : PaymentRec)
        (vres : Except String PaystackData) (now : Nat),
      strStarts reference "ref_" = true →
      findPaymentByRef db.payments reference = some p →
      p.status = "success" →
      (verifyPayment reference vres now db).2 = db) ∧
    (∀ (db : DB) (reference : String) (p : PaymentRec)
        (hmac : String → String → String) (s signature rawBody : String)
        (ev : WebhookEvent) (now : Nat),
      hmac s rawBody = signature →
      ev.event = "charge.success" →
      normalizeReference ev.reference = reference →
      (db.payments.map PaymentRec.transactionReference).Nodup →
      findPaymentByRef db.payments reference = some p →
      findPaymentByRef
          ((webhook hmac (some s) signature rawBody ev now db).2.1).payments
          reference =
        some { p with
               status := "success", paymentDate := some now,
               authorizationCode := ev.authorizationCode,
               paymentMethod := ev.channel.getD "card",
               metadata := [("paystackWebhook", rawBody)] }) := by
  constructor
  · intro db reference p vres now href hp hs
    have hfull : verifyPayment reference vres now db =
        (VerifyRes.alreadyVerified p.pid p.amount
          ((findOrder db.orders p.order).map OrderRec.orderStatus)
          p.paymentDate, db) := by
      unfold verifyPayment
      rw [href, hp]
      simp [hs]
    rw [hfull]
  · intro db reference p hmac s signature rawBody ev now hsig hev hrefev
      hnd hp
    exact webhook_overwrites db reference p hmac s signature rawBody ev now
      hsig hev hrefev hnd hp

/-- Claim C4, witness for the amended statement: the guarded sync path at
the already-success fixture, and the unconditional webhook overwrite at
the failed fixture. -/
theorem claim4_amended_witness :
    (verifyPayment "ref_t1" (Except.ok okData) 50 dbSuccess).2 =
      dbSuccess ∧
    findPaymentByRef ((webhook hmacK (some "sec") "sec/raw" "raw" evT1 99
        dbFailed).2.1).payments "ref_t1" =
      some { payPending with
             status := "success", paymentDate := some 99,
             authorizationCode := some "AUTH_x", paymentMethod := "card",
             metadata := [("paystackWebhook", "raw")] } :=
  ⟨claim4_amended.1 dbSuccess "ref_t1" paySuccess (Except.ok okData) 50
      (by decide) (by decide) rfl,
    claim4_amended.2 dbFailed "ref_t1" { payPending with status := "failed" }
      hmacK "sec" "sec/raw" "raw" evT1 99 rfl rfl (by decide) (by decide)
      (by decide)⟩

/-! ## Claim C5 -/

/-- Claim C5, counterexample.  The claim says a failing order/checkout is
rejected with an error identifying the failing product.  The rejection and
the absence of mutation do hold, but checkout's missing-product error is
the fixed string Product not found for cart item, which names neither the
product id 99 nor its cart name Gizmo. -/
theorem claim5_counterexample :
    checkout 4 shipOK true 77 cartMissing dbPending =
      (CheckoutRes.checkoutFailed (some "Product not found for cart item"),
        dbPending) ∧
    strContains "Product not found for cart item" "Gizmo" = false ∧
    strContains "Product not found for cart item" "99" = false :=
  ⟨by decide, by decide, by decide⟩

/-- Claim C5, amended: a failing createOrder or checkout is rejected as a
whole — the database (orders and stock included) is returned unchanged.
createOrder's error always names the failing product (its name, from the
item or the product document); checkout's insufficient-stock error names
the product, but its missing-product error is a generic message carrying
no product identity, and checkout exposes the message only in development
mode. -/
theorem claim5_amended :
    (∀ (u : Nat) (items : List OrderItem) (ip tp : Int) (oid : Nat)
        (db : DB) (e : CreateOrderRes),
      validateItems db.products items = some e →
      createOrder u items ip tp oid db = (e, db)) ∧
    (∀ (ps : List Product) (items : List OrderItem) (e : CreateOrderRes),
      validateItems ps items = some e →
      (∃ it ∈ items, findProduct ps it.product = none ∧
        e = CreateOrderRes.productNotFound it.name) ∨
      (∃ it ∈ items, ∃ p, findProduct ps it.product = some p ∧
        p.stock < (it.quantity : Int) ∧
        e = CreateOrderRes.insufficientStock p.name p.stock)) ∧
    (∀ (u : Nat) (ship : ShippingInfo) (dev : Bool) (oid : Nat)
        (cart : List CartItem) (db : DB) (m : String),
      missingShippingField ship = none →
      buildOrderItems db.products cart = Except.error m →
      checkout u ship dev oid cart db =
        (CheckoutRes.checkoutFailed (if dev then some m else none), db)) ∧
    (∀ (ps : List Product) (cart : List CartItem) (m : String),
      buildOrderItems ps cart = Except.error m →
      m = "Product not found for cart item" ∨
      ∃ c ∈ cart, ∃ p, findProduct ps c.product = some p ∧
        p.stock < (c.quantity : Int) ∧
        m = "Insufficient stock for " ++ p.name) := by
  refine ⟨?_, fun ps items e h => validateItems_some_shape h, ?_,
    fun ps cart m h => buildOrderItems_error_shape h⟩
  · intro u items ip tp oid db e hval
    cases items with
    | nil => cases hval
    | cons a l =>
      have h0 : ¬ ((false : Bool) = true) := by simp
      unfold createOrder
      rw [show (a :: l).isEmpty = false from rfl, if_neg h0, hval]
  · intro u ship dev oid cart db m hship hbuild
    cases cart with
    | nil => cases hbuild
    | cons a l =>
      have h0 : ¬ ((false : Bool) = true) := by simp
      unfold checkout
      rw [show (a :: l).isEmpty = false from rfl, if_neg h0, hship, hbuild]

/-- Claim C5, witness for the amended statement at the fixtures. -/
theorem claim5_amended_witness :
    (validateItems dbPending.products [itemMissing] =
        some (CreateOrderRes.productNotFound "Widget") ∧
      createOrder 4 [itemMissing] 5 5 3 dbPending =
        (CreateOrderRes.productNotFound "Widget", dbPending)) ∧
    checkout 4 shipOK false 77 cartMissing dbPending =
      (CheckoutRes.checkoutFailed none, dbPending) := by
  refine ⟨⟨by decide, ?_⟩, ?_⟩
  · exact claim5_amended.1 4 [itemMissing] 5 5 3 dbPending
      (CreateOrderRes.productNotFound "Widget") (by decide)
  · exact claim5_amended.2.2.1 4 shipOK false 77 cartMissing dbPending
      "Product not found for cart item" (by decide) (by decide)

/-! ## Claim C6 -/

/-- Claim C6: for an existing order whose requester is the owning user or
an admin, cancelOrder rejects with the cannot-cancel-delivered conflict
response exactly when the order is Delivered (leaving the state unchanged),
and otherwise succeeds, setting the order status to Cancelled without
touching any product stock. -/
theorem claim6_cancel (db : DB) (req : Requester) (orderId : Nat)
    (o : OrderRec)
    (hnd : (db.orders.map OrderRec.oid).Nodup)
    (hfind : findOrder db.orders orderId = some o)
    (hauth : o.user = req.id ∨ req.role = "admin") :
    ((cancelOrder req orderId db).1 = CancelRes.cannotCancelDelivered ↔
      o.orderStatus = "Delivered") ∧
    (o.orderStatus = "Delivered" → (cancelOrder req orderId db).2 = db) ∧
    (o.orderStatus ≠ "Delivered" →
      (cancelOrder req orderId db).1 = CancelRes.cancelled orderId ∧
      findOrder ((cancelOrder req orderId db).2).orders orderId =
        some { o with orderStatus := "Cancelled" } ∧
      ((cancelOrder req orderId db).2).products = db.products) := by
  have hnAuth : ¬ (o.user ≠ req.id ∧ req.role ≠ "admin") := by tauto
  unfold cancelOrder
  rw [hfind]
  dsimp only
  rw [if_neg hnAuth]
  by_cases hd : o.orderStatus = "Delivered"
  · rw [if_pos hd]
    refine ⟨by simp [hd], fun _ => rfl, fun hcon => absurd hd hcon⟩
  · rw [if_neg hd]
    refine ⟨by simp [hd], fun hcon => absurd hcon hd, fun _ => ?_⟩
    refine ⟨rfl, ?_, ?_⟩
    · exact findBy_updBy_nodup hnd hfind (findBy_key_of_found hfind) rfl
    · simp [orderPreSaveHook]

/-- Claim C6, witness at a delivered fixture order. -/
theorem claim6_cancel_witness :
    (((cancelOrder ⟨4, "customer"⟩ 2 dbOrders).1 =
        CancelRes.cannotCancelDelivered ↔
          orderD.orderStatus = "Delivered") ∧
      (orderD.orderStatus = "Delivered" →
        (cancelOrder ⟨4, "customer"⟩ 2 dbOrders).2 = dbOrders) ∧
      (orderD.orderStatus ≠ "Delivered" →
        (cancelOrder ⟨4, "customer"⟩ 2 dbOrders).1 =
          CancelRes.cancelled 2 ∧
        findOrder ((cancelOrder ⟨4, "customer"⟩ 2 dbOrders).2).orders 2 =
          some { orderD with orderStatus := "Cancelled" } ∧
        ((cancelOrder ⟨4, "customer"⟩ 2 dbOrders).2).products =
          dbOrders.products)) :=
  claim6_cancel dbOrders ⟨4, "customer"⟩ 2 orderD (by decide) (by decide)
    (Or.inl rfl)

/-! ## Claim C7 -/

/-- Claim C7: when the webhook secret is configured and the
x-paystack-signature header differs from the HMAC digest of the raw body,
the webhook answers the 400 invalid-signature response immediately: the
returned state is the unchanged database and the access trace is empty, so
no Payment, Order or Product state is read or written. -/
theorem claim7_sig_gate (hmac : String → String → String)
    (s signature rawBody : String) (ev : WebhookEvent) (now : Nat) (db : DB)
    (hbad : hmac s rawBody ≠ signature) :
    webhook hmac (some s) signature rawBody ev now db =
      (WebhookRes.invalidSignature, db, []) ∧
    webhookStatusCode
      (webhook hmac (some s) signature rawBody ev now db).1 = 400 := by
  unfold webhook
  dsimp only
  rw [if_pos hbad]
  exact ⟨rfl, rfl⟩

/-- Claim C7, witness with a concrete digest function and a wrong
signature. -/
theorem claim7_sig_gate_witness :
    webhook hmacK (some "sec") "bogus" "raw" evT1 99 dbPending =
      (WebhookRes.invalidSignature, dbPending, []) ∧
    webhookStatusCode
      (webhook hmacK (some "sec") "bogus" "raw" evT1 99 dbPending).1
        = 400 :=
  claim7_sig_gate hmacK "sec" "bogus" "raw" evT1 99 dbPending (by decide)

/-! ## Claim C8 -/

/-- Claim C8, counterexample.  The claim asserts a total backoff delay of
at least 2000 x (1+2+3+4+5) = 30000 ms.  The run against an always-pending
processor sleeps only after attempts 1 through 4 — no sleep follows the
final attempt, which throws — so the total backoff is
2000 x (1+2+3+4) = 20000 ms, below the claimed bound. -/
theorem claim8_counterexample :
    (verifyTransaction pendingProc 1).delays.sum = 20000 ∧
    ¬ ((20000 : Nat) ≥ 2000 * (1 + 2 + 3 + 4 + 5)) := by
  constructor
  · rw [vtPend1 pendingProc (fun _ => rfl)]
    decide
  · decide

/-- Claim C8, amended: against a processor that reports pending on every
query, verifyTransaction terminates after exactly 5 attempts with the
still-pending-after-maximum-retries timeout error, never retrying past the
attempt cap and never hanging; it sleeps baseDelay * attempt after each of
the first four attempts (2000, 4000, 6000, 8000 ms), for a total backoff
of 2000 x (1+2+3+4) = 20000 ms — not at least 2000 x (1+2+3+4+5) ms, since
no sleep follows the fifth attempt. -/
theorem claim8_amended (proc : Nat → ProcResp)
    (h : ∀ n, proc n = ProcResp.ok (some "pending")) :
    (verifyTransaction proc 1).result =
      Except.error
        ⟨none, "Transaction still pending after maximum retries"⟩ ∧
    (verifyTransaction proc 1).attempts = 5 ∧
    (verifyTransaction proc 1).delays = [2000, 4000, 6000, 8000] ∧
    (verifyTransaction proc 1).delays.sum = 20000 := by
  rw [vtPend1 proc h]
  exact ⟨rfl, rfl, rfl, by decide⟩

/-- Claim C8, witness at the concrete always-pending oracle. -/
theorem claim8_amended_witness :
    (∀ n, pendingProc n = ProcResp.ok (some "pending")) ∧
    ((verifyTransaction pendingProc 1).result =
      Except.error
        ⟨none, "Transaction still pending after maximum retries"⟩ ∧
    (verifyTransaction pendingProc 1).attempts = 5 ∧
    (verifyTransaction pendingProc 1).delays = [2000, 4000, 6000, 8000] ∧
    (verifyTransaction pendingProc 1).delays.sum = 20000) :=
  ⟨fun _ => rfl, claim8_amended pendingProc (fun _ => rfl)⟩

/-! ## Claim C9 -/

/-- Claim C9: for a pending payment whose verification settles as failed
or abandoned, the synchronous verify sets the payment status to failed and
records a failureReason key in its metadata, while the orders collection
(and the product stock) is left entirely unchanged. -/
theorem claim9_failed_frame (db : DB) (reference : String) (p : PaymentRec)
    (d : PaystackData) (now : Nat)
    (href : strStarts reference "ref_" = true)
    (hnd : (db.payments.map PaymentRec.pid).Nodup)
    (hp : findPaymentByRef db.payments reference = some p)
    (hpend : p.status = "pending")
    (hd : d.status = "failed" ∨ d.status = "abandoned") :
    ((verifyPayment reference (Except.ok d) now db).2).orders =
      db.orders ∧
    ((verifyPayment reference (Except.ok d) now db).2).products
      = db.products ∧
    ∃ p2, findPaymentByRef
        ((verifyPayment reference (Except.ok d) now db).2).payments
        reference = some p2 ∧
      p2.status = "failed" ∧
      Metadata.hasKey p2.metadata "failureReason" = true := by
  have h0 : ¬ ((true : Bool) = false) := by simp
  have h1 : ¬ (p.status = "success") := by simp [hpend]
  unfold verifyPayment
  rw [href, hp]
  dsimp only
  rw [if_neg h0, if_neg h1]
  rcases hd with hd | hd
  · have h2 : ¬ (d.status = "success") := by simp [hd]
    have h3 : ¬ (d.status = "abandoned") := by simp [hd]
    rw [if_neg h2, if_neg h3, if_pos hd]
    exact ⟨rfl, rfl, _, findBy_updBy_nodup hnd hp rfl rfl, rfl,
      metadata_hasKey_append ..⟩
  · have h2 : ¬ (d.status = "success") := by simp [hd]
    rw [if_neg h2, if_pos hd]
    exact ⟨rfl, rfl, _, findBy_updBy_nodup hnd hp rfl rfl, rfl,
      metadata_hasKey_append ..⟩

/-- Claim C9, witness at the pending fixture with a failed verification. -/
theorem claim9_failed_frame_witness :
    ((verifyPayment "ref_t1" (Except.ok failData) 50 dbPending).2).orders =
      dbPending.orders ∧
    ((verifyPayment "ref_t1" (Except.ok failData) 50 dbPending).2).products
      = dbPending.products ∧
    ∃ p2, findPaymentByRef
        ((verifyPayment "ref_t1" (Except.ok failData) 50
          dbPending).2).payments "ref_t1" = some p2 ∧
      p2.status = "failed" ∧
      Metadata.hasKey p2.metadata "failureReason" = true :=
  claim9_failed_frame dbPending "ref_t1" payPending failData 50 (by decide)
    (by decide) (by decide) rfl (Or.inl rfl)

/-! ## Claim C10 -/

/-- Claim C10: a successful cart checkout decrements each referenced
product's stock by twice the cart line quantity — once through the Order
pre-save hook (the new order is saved with orderStatus Processing) and
once more through checkout's explicit per-line stock update. -/
theorem claim10_checkout_double (userId : Nat) (shipping : ShippingInfo)
    (devMode : Bool) (newOid : Nat) (cart : List CartItem) (db : DB)
    (items : List OrderItem) (it : CartItem) (p : Product)
    (hship : missingShippingField shipping = none)
    (hbuild : buildOrderItems db.products cart = Except.ok items)
    (hnd : (cart.map (fun c => c.product)).Nodup)
    (hmem : it ∈ cart)
    (hp : findProduct db.products it.product = some p) :
    (checkout userId shipping devMode newOid cart db).1 =
      CheckoutRes.completed newOid
        (cart.foldl (fun sum c => sum + c.price * (c.quantity : Int)) 0) ∧
    findProduct
        ((checkout userId shipping devMode newOid cart db).2).products
        it.product =
      some { p with stock := p.stock - 2 * (it.quantity : Int) } := by
  have hne : cart.isEmpty = false := by
    cases cart with
    | nil => cases hmem
    | cons a l => rfl
  have h0 : ¬ ((false : Bool) = true) := by simp
  unfold checkout
  rw [hne, if_neg h0, hship, hbuild]
  dsimp only
  refine ⟨rfl, ?_⟩
  rw [orderPreSaveHook_processing _ _ rfl]
  dsimp only
  rw [buildOrderItems_pairs hbuild]
  have hndp : (((cart.map (fun c => (c.product, c.quantity))).map
      Prod.fst)).Nodup := by
    rw [cartPairs_fst]; exact hnd
  have hmemp : (it.product, it.quantity) ∈
      cart.map (fun c => (c.product, c.quantity)) :=
    List.mem_map_of_mem _ hmem
  have step1 := findProduct_decStockMany_mem hndp hmemp hp
  have step2 := findProduct_decStockMany_mem hndp hmemp step1
  rw [step2]
  have harith : p.stock - (it.quantity : Int) - (it.quantity : Int)
      = p.stock - 2 * (it.quantity : Int) := by ring
  rw [harith]

/-- Claim C10, witness: checking out the quantity-3 fixture cart against
stock 10 leaves stock 4. -/
theorem claim10_checkout_double_witness :
    (checkout 4 shipOK false 8 cartG dbPending).1 =
      CheckoutRes.completed 8
        (cartG.foldl (fun sum c => sum + c.price * (c.quantity : Int)) 0) ∧
    findProduct ((checkout 4 shipOK false 8 cartG dbPending).2).products
        1 =
      some { prodG with stock := prodG.stock - 2 * (3 : Int) } :=
  claim10_checkout_double 4 shipOK false 8 cartG dbPending
    [{ name := "Gizmo", quantity := 3, image := "/default-product.jpg",
       price := 1000, product := 1 }]
    { product := 1, name := "Gizmo", quantity := 3, price := 1000,
      image := "i.jpg" } prodG (by decide) (by decide) (by decide)
    (by decide) (by decide)

end ShopSphere
